import Mathlib

/-!
Verification development for the elyx dependency-injection container
(`src/elyx/container/container.py` together with
`src/elyx/container/contextual_binding_builder.py` and `src/elyx/exceptions.py`).

The Python container is shallowly embedded: dictionaries become association
lists, object identity becomes an allocation counter threaded through the
state, callbacks become opaque numeric identifiers whose invocations are
recorded in a trace, and the unbounded Python recursion of `resolve`/`_build`
is made total with an explicit fuel parameter (fuel exhaustion models a
resolution that is still recursing).  Factories (closures bound as concretes)
are modelled as pure functions of their explicit keyword arguments, supplied
through an environment `FactoryEnv`; no claim below depends on a factory
mutating the container.  Class objects are modelled by a `ClassTable` mapping
the fully-qualified class name (the output of `Str.class_to_string`) to the
class's constructor signature, abstractness flag and method resolution order.
-/

namespace Elyx

/-- Association-list lookup, mirroring Python `dict.get`. -/
def lookupA {α : Type} : List (String × α) → String → Option α
  | [], _ => none
  | (k, v) :: rest, key => if k = key then some v else lookupA rest key

/-- Association-list deletion, mirroring Python `del d[k]` (keys are unique
in a Python dict, so removing every occurrence is equivalent). -/
def eraseA {α : Type} : List (String × α) → String → List (String × α)
  | [], _ => []
  | (k, v) :: rest, key =>
      if k = key then eraseA rest key else (k, v) :: eraseA rest key

/-- The keys of a list with one key removed, written as a plain recursion
so the callback-walk of `_fire_resolving_callbacks` can be characterized. -/
def filterNe (key : String) : List String → List String
  | [] => []
  | b :: rest => if b = key then filterNe key rest else b :: filterNe key rest

/-- Association-list assignment, mirroring Python `d[k] = v`. -/
def insertA {α : Type} (m : List (String × α)) (k : String) (v : α) :
    List (String × α) :=
  (k, v) :: eraseA m k

/-- Membership `k in d` on a Python dict. -/
def memA {α : Type} (m : List (String × α)) (k : String) : Bool :=
  (lookupA m k).isSome

/-- Runtime values handled by the container: built objects (carrying the
fully-qualified name of their class, an allocation identifier standing for
Python object identity, and the constructor arguments that were injected),
strings, `None`, and integers. -/
inductive Value where
  | obj (cls : String) (id : Nat) (fields : List (String × Value))
  | vstr (s : String)
  | vnone
  | vint (n : Int)

/-- An abstract identifier passed to `make`/`bind`: either a class object
(`isinstance(abstract, type)` holds) or a plain string.  Class names are
stored already fully qualified, which is what `Str.class_to_string`
produces; `builtin` records whether `__module__ == "builtins"`. -/
inductive TypeRef where
  | cls (name : String) (builtin : Bool)
  | str (s : String)
  deriving DecidableEq

/-- Model of `Str.class_to_string`: a class maps to its fully-qualified name, a
string is returned unchanged. -/
def class_to_string : TypeRef → String
  | .cls n _ => n
  | .str s => s

/-- A constructor-parameter annotation: either a direct reference (a class
or a string) or a `Union`/`Optional`, recorded as its non-`None` members
plus whether `None` is among the union arguments. -/
inductive Annot where
  | ref (t : TypeRef)
  | union (refs : List TypeRef) (hasNone : Bool)

/-- The `Optional`-unwrapping of `Container._build` (lines 195-201): a union
is replaced by its single non-`None` member exactly when `None` occurs among
the arguments and exactly one non-`None` member remains. -/
def unwrapAnnot : Annot → Annot
  | .ref t => .ref t
  | .union refs hasNone =>
      match refs, hasNone with
      | [t], true => .ref t
      | rs, h => .union rs h

/-- One constructor parameter (`self` is excluded; `variadic` marks
`*args`/`**kwargs` parameters, which `_build` skips). -/
structure Param where
  name : String
  annot : Option Annot
  dflt : Option Value
  variadic : Bool

/-- A Python class as the container introspects it: constructor parameters
in declaration order, `inspect.isabstract`, and the `__mro__` as a list of
normalized class names (the class itself first). -/
structure PyClass where
  name : String
  params : List Param
  isAbstract : Bool
  mro : List String

/-- The ambient set of Python classes, keyed by fully-qualified name. -/
abbrev ClassTable := List (String × PyClass)

/-- A concrete definition stored in a binding: a class, a factory closure
(identified by an index into the factory environment) or a non-callable
literal. -/
inductive Concrete where
  | cls (name : String)
  | factory (f : Nat)
  | lit (v : Value)

/-- A registry entry: `{"concrete": ..., "shared": ..., "scoped": ...}`
(the scoped flag is called `scopedFlag` because `scoped` is reserved). -/
structure Binding where
  concrete : Concrete
  shared : Bool
  scopedFlag : Bool

/-- Errors raised by the container.  `entryNotFound` carries the `entry_id`
of `EntryNotFoundException`; `circular` is the shape a cycle-detection error
would have; `fuel` reports that the modelled recursion exceeded the given
depth budget (the Python code would still be recursing). -/
inductive Err where
  | entryNotFound (id : String)
  | circular (cycle : List String)
  | fuel
  deriving DecidableEq

/-- Factory semantics: a factory index and the explicit keyword arguments
determine the produced value. -/
abbrev FactoryEnv := Nat → List (String × Value) → Value

/-- The container state (`Container.__init__`, lines 19-33): bindings,
shared instances, scoped instances, aliases, resolved marks, the callback
registries of the four phases, and the environment resolver.  `nextId`
models the Python allocator and supplies fresh object identities. -/
structure St where
  bindings : List (String × Binding)
  instances : List (String × Value)
  scopedInstances : List (String × Value)
  aliases : List (String × String)
  resolvedKeys : List (String × Bool)
  globalBeforeCbs : List Nat
  beforeCbs : List (String × List Nat)
  globalResolvingCbs : List Nat
  resolvingCbs : List (String × List Nat)
  globalAfterCbs : List Nat
  afterCbs : List (String × List Nat)
  rebindingCbs : List (String × List Nat)
  envResolver : Option (List String → Bool)
  nextId : Nat

/-- Model of `Container.get_alias` (lines 618-630): it chases the alias chain to a fixed
point.  The Python recursion is unbounded and diverges on a cyclic alias
table; the model bounds it by explicit fuel, and `get_alias` supplies fuel
`length + 1`, which fully chases every acyclic chain (a chain cannot be
longer than the table without revisiting an entry). -/
def getAliasF : Nat → List (String × String) → String → String
  | 0, _, k => k
  | n + 1, al, k =>
      match lookupA al k with
      | some t => getAliasF n al t
      | none => k

/-- Model of `Container.get_alias` as called by the container. -/
def get_alias (al : List (String × String)) (k : String) : String :=
  getAliasF (al.length + 1) al k

/-- Model of `Container.is_alias` (lines 606-616). -/
def is_alias (s : St) (name : String) : Bool :=
  memA s.aliases name

/-- Model of `Container.bound` (lines 73-89). -/
def bound (s : St) (abstract : TypeRef) : Bool :=
  let key := class_to_string abstract
  memA s.bindings key || memA s.instances key || memA s.scopedInstances key ||
    is_alias s key

/-- Model of `Container.is_shared` (lines 539-550). -/
def is_shared (s : St) (key : String) : Bool :=
  memA s.instances key ||
    (match lookupA s.bindings key with
     | some b => b.shared
     | none => false)

/-- Model of `Container.is_scoped` (lines 552-563). -/
def is_scoped (s : St) (key : String) : Bool :=
  memA s.scopedInstances key ||
    (match lookupA s.bindings key with
     | some b => b.scopedFlag
     | none => false)

/-- Model of `Container.resolved` (lines 124-139): normalize, chase the alias, then
check the resolved marks and the shared-instance cache. -/
def resolvedQ (s : St) (abstract : TypeRef) : Bool :=
  let key0 := class_to_string abstract
  let key := if is_alias s key0 then get_alias s.aliases key0 else key0
  memA s.resolvedKeys key || memA s.instances key

/-- Model of `Container.current_environment_is` (lines 858-871). -/
def current_environment_is (s : St) (environments : List String) : Bool :=
  match s.envResolver with
  | none => false
  | some f => f environments

/-- Model of `Container._drop_stale_instances` (lines 381-395). -/
def drop_stale_instances (s : St) (key : String) : St :=
  { s with
    instances := eraseA s.instances key
    scopedInstances := eraseA s.scopedInstances key
    aliases := eraseA s.aliases key }

/-- Model of `Container.flush` (lines 632-640): the five resolution maps are reset;
the callback registries and the environment resolver are untouched. -/
def flush (s : St) : St :=
  { s with
    aliases := []
    resolvedKeys := []
    bindings := []
    instances := []
    scopedInstances := [] }

/-- Model of `Container.forget_scoped_instances` (lines 845-847). -/
def forget_scoped_instances (s : St) : St :=
  { s with scopedInstances := [] }

/-- The `__mro__` of a value's class, as a list of normalized names.  Every
Python value has `__class__`; for built-in values the chain is the built-in
class followed by `object`. -/
def mroOf (ct : ClassTable) : Value → List String
  | .obj c _ _ =>
      match lookupA ct c with
      | some k => k.mro
      | none => [c]
  | .vstr _ => ["builtins.str", "builtins.object"]
  | .vnone => ["builtins.NoneType", "builtins.object"]
  | .vint _ => ["builtins.int", "builtins.object"]

/-- Model of `Container._fire_before_resolving_callbacks` (lines 303-317): global
callbacks, then the key-specific ones.  Firing is recorded as the list of
invoked callback identifiers. -/
def fire_before_resolving_callbacks (s : St) (key : String) : List Nat :=
  s.globalBeforeCbs ++ (lookupA s.beforeCbs key).getD []

/-- Model of `Container._fire_resolving_callbacks` (lines 250-272): global callbacks,
then key-specific ones, then — walking `instance.__class__.__mro__` — the
callbacks registered for every base whose normalized name differs from the
requested key. -/
def fire_resolving_callbacks (ct : ClassTable) (s : St) (key : String)
    (inst : Value) : List Nat :=
  s.globalResolvingCbs ++ (lookupA s.resolvingCbs key).getD [] ++
    (mroOf ct inst).foldl
      (fun acc b =>
        if b = key then acc else acc ++ (lookupA s.resolvingCbs b).getD [])
      []

/-- Model of `Container._fire_after_resolving_callbacks` (lines 274-288): global
callbacks, then key-specific ones; unlike the resolving phase there is no
walk of the instance's ancestor chain. -/
def fire_after_resolving_callbacks (s : St) (key : String) : List Nat :=
  s.globalAfterCbs ++ (lookupA s.afterCbs key).getD []

/-- Model of `Container._fire_rebinding_callbacks` (lines 290-301). -/
def fire_rebinding_callbacks (s : St) (key : String) : List Nat :=
  (lookupA s.rebindingCbs key).getD []

/-- Result of a `resolve`/`_build` step: the value or error, the container
state after the step (Python mutates in place, so partial effects survive a
raised exception), and the trace of callback invocations. -/
structure RRes where
  r : Except Err Value
  st : St
  tr : List Nat

/-- Result of the dependency-resolution loop of `_build`: the accumulated
`dependencies` dict or the raised error, plus state and trace. -/
structure DRes where
  r : Except Err (List (String × Value))
  st : St
  tr : List Nat

/-- Whether the unwrapped annotation is something `_build` will try to
resolve (lines 208-214): a non-builtin class, or a string. -/
def annotTarget : Annot → Option TypeRef
  | .ref (.cls n false) => some (.cls n false)
  | .ref (.cls _ true) => none
  | .ref (.str s) => some (.str s)
  | .union _ _ => none

/-- Model of `bound` as consulted on line 204 for a defaulted parameter: a union that
survived unwrapping is never a dict key, so it is unbound. -/
def boundAnnot (s : St) : Annot → Bool
  | .ref t => bound s t
  | .union _ _ => false

/-- The parameter loop of `Container._build` (lines 180-232), parameterized
by the recursive `make` (`mk`, called with no explicit parameters, exactly
as `self.make(type_to_resolve)` on lines 210/213).  `cname` is the
normalized name of the concrete being built, used in the wrapped error
message; `kwargs` are the remaining explicit parameters and `deps` the
accumulated `dependencies` dict. -/
def resolveDeps (mk : St → TypeRef → RRes) (cname : String) :
    St → List Param → List (String × Value) → List (String × Value) → DRes
  | s, [], _, deps => ⟨.ok deps, s, []⟩
  | s, p :: ps, kwargs, deps =>
      if p.variadic then resolveDeps mk cname s ps kwargs deps
      else
        match lookupA kwargs p.name with
        | some v =>
            resolveDeps mk cname s ps (eraseA kwargs p.name)
              (deps ++ [(p.name, v)])
        | none =>
            match p.annot with
            | some ann =>
                let t := unwrapAnnot ann
                if p.dflt.isSome && !boundAnnot s t then
                  resolveDeps mk cname s ps kwargs deps
                else
                  match annotTarget t with
                  | some target =>
                      let res := mk s target
                      match res.r with
                      | .ok v =>
                          let rest := resolveDeps mk cname res.st ps kwargs
                            (deps ++ [(p.name, v)])
                          ⟨rest.r, rest.st, res.tr ++ rest.tr⟩
                      | .error (.entryNotFound msg) =>
                          match p.dflt with
                          | none =>
                              ⟨.error (.entryNotFound
                                  (msg ++ " while building [" ++ cname ++ "]")),
                                res.st, res.tr⟩
                          | some _ =>
                              let rest := resolveDeps mk cname res.st ps kwargs
                                deps
                              ⟨rest.r, rest.st, res.tr ++ rest.tr⟩
                      | .error e => ⟨.error e, res.st, res.tr⟩
                  | none =>
                      if p.dflt.isSome then
                        resolveDeps mk cname s ps kwargs deps
                      else
                        ⟨.error (.entryNotFound
                            ("Unresolvable dependency: parameter '" ++ p.name ++
                              "' in class '" ++ cname ++ "'")), s, []⟩
            | none =>
                if p.dflt.isSome then resolveDeps mk cname s ps kwargs deps
                else
                  ⟨.error (.entryNotFound
                      ("Unresolvable dependency: parameter '" ++ p.name ++
                        "' in class '" ++ cname ++ "'")), s, []⟩

/-- The object constructed by `concrete(**dependencies)`: each
non-variadic parameter takes its resolved dependency, or its declared
default when the loop left it out. -/
def mkFields (params : List Param) (deps : List (String × Value)) :
    List (String × Value) :=
  params.filterMap (fun p =>
    if p.variadic then none
    else
      match lookupA deps p.name with
      | some v => some (p.name, v)
      | none => p.dflt.map (fun d => (p.name, d)))

/-- Model of `Container._build` for a class concrete (lines 156-157 and 172-234),
parameterized by the recursive `make`.  An abstract class raises
`EntryNotFound("Target [...] is not instantiable.")`; otherwise the
parameter loop runs and the instance is allocated with a fresh identity. -/
def buildClass (mk : St → TypeRef → RRes) (ct : ClassTable) (s : St)
    (cname : String) (kwargs : List (String × Value)) : RRes :=
  match lookupA ct cname with
  | none => ⟨.error (.entryNotFound cname), s, []⟩
  | some k =>
      if k.isAbstract then
        ⟨.error (.entryNotFound
            ("Target [" ++ cname ++ "] is not instantiable.")), s, []⟩
      else
        let d := resolveDeps mk cname s k.params kwargs []
        match d.r with
        | .error e => ⟨.error e, d.st, d.tr⟩
        | .ok deps =>
            ⟨.ok (.obj cname d.st.nextId (mkFields k.params deps)),
              { d.st with nextId := d.st.nextId + 1 }, d.tr⟩

/-- The tail of `Container.resolve` after a successful build (lines
361-369): cache the instance in the scoped map when the key is scoped and
no explicit parameters were given, likewise in the shared-instance map
when the key is shared, and mark the key resolved. -/
def cacheAndMark (s1 : St) (key : String) (kwargsEmpty : Bool)
    (inst : Value) : St :=
  let s2 :=
    if kwargsEmpty && is_scoped s1 key then
      { s1 with scopedInstances := insertA s1.scopedInstances key inst }
    else s1
  let s3 :=
    if kwargsEmpty && is_shared s2 key then
      { s2 with instances := insertA s2.instances key inst }
    else s2
  { s3 with resolvedKeys := insertA s3.resolvedKeys key true }

/-- The guard `not kwargs and key in cache` of lines 338 and 341: the
cached value, provided no explicit parameters were supplied. -/
def cacheHit (kwargsEmpty : Bool) (cached : Option Value) : Option Value :=
  if kwargsEmpty then cached else none

/-- Determination of the concrete definition (lines 344-353): registry
lookup on the canonical key, else auto-wiring when the original abstract is
a class object, else nothing (`EntryNotFound`).  There is no contextual
lookup: the container stores no contextual bindings. -/
def concreteFor (s : St) (key : String) (abstract : TypeRef) :
    Option Concrete :=
  match lookupA s.bindings key with
  | some b => some b.concrete
  | none =>
      match abstract with
      | .cls c _ => some (.cls c)
      | .str _ => none

/-- Lines 356-359: `_build` for callables (classes and factories), the
literal itself otherwise. -/
def buildConcrete (mk : St → TypeRef → RRes) (fenv : FactoryEnv)
    (ct : ClassTable) (s : St) (con : Concrete)
    (kwargs : List (String × Value)) : RRes :=
  match con with
  | .cls c => buildClass mk ct s c kwargs
  | .factory f => ⟨.ok (fenv f kwargs), s, []⟩
  | .lit v => ⟨.ok v, s, []⟩

/-- Lines 361-379: propagate a build failure (state mutations made by the
failed build survive, as in Python), otherwise cache, mark resolved, fire
the resolving and after-resolving callbacks, and return the instance. -/
def afterBuild (ct : ClassTable) (key : String) (kwargsEmpty re : Bool)
    (tr0 : List Nat) (built : RRes) : RRes :=
  match built.r with
  | .error e => ⟨.error e, built.st, tr0 ++ built.tr⟩
  | .ok inst =>
      let s4 := cacheAndMark built.st key kwargsEmpty inst
      let tr2 := if re then fire_resolving_callbacks ct s4 key inst else []
      let tr3 := if re then fire_after_resolving_callbacks s4 key else []
      ⟨.ok inst, s4, tr0 ++ built.tr ++ tr2 ++ tr3⟩

/-- Model of `Container.resolve` (lines 319-379), totalized by fuel: normalize the
abstract and chase aliases; fire the before-resolving callbacks; return a
cached scoped or shared instance when no explicit parameters were given;
otherwise determine the concrete, build it, cache according to
`is_scoped`/`is_shared`, mark the key resolved and fire the resolving and
after-resolving callbacks. -/
def resolve (fenv : FactoryEnv) (ct : ClassTable) :
    Nat → St → TypeRef → List (String × Value) → Bool → RRes
  | 0, s, _, _, _ => ⟨.error .fuel, s, []⟩
  | n + 1, s, abstract, kwargs, raiseEvents =>
      let key := get_alias s.aliases (class_to_string abstract)
      let tr0 := if raiseEvents then fire_before_resolving_callbacks s key
        else []
      match cacheHit kwargs.isEmpty (lookupA s.scopedInstances key) with
      | some v => ⟨.ok v, s, tr0⟩
      | none =>
        match cacheHit kwargs.isEmpty (lookupA s.instances key) with
        | some v => ⟨.ok v, s, tr0⟩
        | none =>
          match concreteFor s key abstract with
          | none => ⟨.error (.entryNotFound key), s, tr0⟩
          | some con =>
              afterBuild ct key kwargs.isEmpty raiseEvents tr0
                (buildConcrete (fun s' t => resolve fenv ct n s' t [] true)
                  fenv ct s con kwargs)

/-- Result of a `bind` call: `bind` can raise, because a rebind with
registered rebinding callbacks eagerly re-resolves the key. -/
structure BRes where
  r : Except Err Unit
  st : St
  tr : List Nat

/-- Model of `Container.bind` (lines 451-488) for a class or string abstract (the
closure-abstract branch on line 468 is unreachable for these inputs):
drop stale instances and alias, default the concrete to the abstract
itself, store the binding, and — when the key was already bound and has
rebinding callbacks — fire them and eagerly re-resolve the key (with
events suppressed), then fire the resolving callbacks for the new
instance. -/
def bind (fenv : FactoryEnv) (ct : ClassTable) (fuel : Nat) (s : St)
    (abstract : TypeRef) (concrete? : Option Concrete) (shared scpd : Bool) :
    BRes :=
  let key := class_to_string abstract
  let s1 := drop_stale_instances s key
  let con := match concrete? with
    | some c => c
    | none =>
        match abstract with
        | .cls c _ => Concrete.cls c
        | .str str => Concrete.lit (.vstr str)
  let needsRebinding := memA s1.bindings key
  let s2 := { s1 with bindings := insertA s1.bindings key ⟨con, shared, scpd⟩ }
  if needsRebinding && memA s2.rebindingCbs key then
    let tr1 := fire_rebinding_callbacks s2 key
    let res := resolve fenv ct fuel s2 (.str key) [] false
    match res.r with
    | .error e => ⟨.error e, res.st, tr1 ++ res.tr⟩
    | .ok inst =>
        ⟨.ok (), res.st,
          tr1 ++ res.tr ++ fire_resolving_callbacks ct res.st key inst⟩
  else ⟨.ok (), s2, []⟩

/-- Model of `Container.singleton` (lines 507-519): `bind(abstract, concrete,
shared=True)`. -/
def singleton (fenv : FactoryEnv) (ct : ClassTable) (fuel : Nat) (s : St)
    (abstract : TypeRef) (concrete? : Option Concrete) : BRes :=
  bind fenv ct fuel s abstract concrete? true false

/-- Model of `Container.scoped` (lines 535-537): `bind(abstract, concrete,
scoped=True)`. -/
def scopedBind (fenv : FactoryEnv) (ct : ClassTable) (fuel : Nat) (s : St)
    (abstract : TypeRef) (concrete? : Option Concrete) : BRes :=
  bind fenv ct fuel s abstract concrete? false true

/-- Model of `Container.resolving` for a global callback (line 731): append to the
global resolving list. -/
def registerGlobalResolving (s : St) (cb : Nat) : St :=
  { s with globalResolvingCbs := s.globalResolvingCbs ++ [cb] }

/-- Two explicit-parameter dicts that bind exactly the same names, in the
same order, every one of them drawn from `ns`; only the values may
differ. -/
def SameNames (ns : List String) :
    List (String × Value) → List (String × Value) → Prop :=
  List.Forall₂ (fun a b => a.1 = b.1 ∧ a.1 ∈ ns)

/-- Two dependency dicts that agree on names and agree on every value
whose name lies outside `ns`. -/
def AgreeOutside (ns : List String) :
    List (String × Value) → List (String × Value) → Prop :=
  List.Forall₂ (fun a b => a.1 = b.1 ∧ (a.1 ∈ ns ∨ a.2 = b.2))

/-- State relation: the fields that `resolve` never writes (registry,
aliases, the callback registries and the environment resolver) agree. -/
structure Frame (s s' : St) : Prop where
  bindings : s'.bindings = s.bindings
  aliases : s'.aliases = s.aliases
  gb : s'.globalBeforeCbs = s.globalBeforeCbs
  bc : s'.beforeCbs = s.beforeCbs
  gr : s'.globalResolvingCbs = s.globalResolvingCbs
  rc : s'.resolvingCbs = s.resolvingCbs
  ga : s'.globalAfterCbs = s.globalAfterCbs
  ac : s'.afterCbs = s.afterCbs
  rbc : s'.rebindingCbs = s.rebindingCbs
  env : s'.envResolver = s.envResolver

/-! ### Shared fixtures: concrete states and class tables used to evaluate
the model on the scenarios of the specification. -/

/-- The freshly initialized container (`Container.__init__`). -/
def st0 : St := ⟨[], [], [], [], [], [], [], [], [], [], [], [], none, 0⟩

/-- A factory environment with inert factories (no claim below exercises a
factory body). -/
def fenv0 : FactoryEnv := fun _ _ => .vnone

/-- A class table with a single concrete no-argument class `C`. -/
def ctC : ClassTable := [("C", ⟨"C", [], false, ["C", "builtins.object"]⟩)]

/-- A container in which `"K"` is bound via `singleton` to class `C`. -/
def sShared : St := { st0 with bindings := [("K", ⟨.cls "C", true, false⟩)] }

/-- A container with a scoped binding for `"K"` that already has a cached
scoped instance (identity 7), and whose environment resolver rejects every
environment.  `nextId = 100`, so a fresh build would be visible both in the
returned identity and in the allocation counter. -/
def sScopedEnv : St := { st0 with
  bindings := [("K", ⟨.cls "C", false, true⟩)]
  scopedInstances := [("K", .obj "C" 7 [])]
  envResolver := some (fun _ => false)
  nextId := 100 }

/-- A container in which `"K"` has a plain transient binding (not shared,
not scoped, no cached instance) to the literal `"x"`. -/
def sTrans : St := { st0 with bindings := [("K", ⟨.lit (.vstr "x"), false, false⟩)] }

/-- Two mutually dependent concrete classes: `A`'s constructor requires a
`B` and `B`'s constructor requires an `A`. -/
def ctCyc : ClassTable :=
  [("A", ⟨"A", [⟨"b", some (.ref (.cls "B" false)), none, false⟩], false,
      ["A", "builtins.object"]⟩),
   ("B", ⟨"B", [⟨"a", some (.ref (.cls "A" false)), none, false⟩], false,
      ["B", "builtins.object"]⟩)]

/-- A container binding `A -> class A` and `B -> class B`, so that
`make(A)` must construct an `A`, which needs a `B`, which needs an `A`. -/
def sCyc : St := { st0 with
  bindings := [("A", ⟨.cls "A", false, false⟩), ("B", ⟨.cls "B", false, false⟩)] }

/-- Two unrelated no-argument concrete classes `A` and `B`, for the rebind
scenario. -/
def ctAB : ClassTable :=
  [("A", ⟨"A", [], false, ["A", "builtins.object"]⟩),
   ("B", ⟨"B", [], false, ["B", "builtins.object"]⟩)]

/-- Two consumer classes that both depend on the abstract `IDep`, a
concrete implementation `ImplG`, and the abstract class itself. -/
def ctC4 : ClassTable :=
  [("Consumer1", ⟨"Consumer1",
      [⟨"dep", some (.ref (.cls "IDep" false)), none, false⟩], false,
      ["Consumer1", "builtins.object"]⟩),
   ("Consumer2", ⟨"Consumer2",
      [⟨"dep", some (.ref (.cls "IDep" false)), none, false⟩], false,
      ["Consumer2", "builtins.object"]⟩),
   ("IDep", ⟨"IDep", [], true, ["IDep", "builtins.object"]⟩),
   ("ImplG", ⟨"ImplG", [], false, ["ImplG", "IDep", "builtins.object"]⟩)]

/-- A container with only the global binding `IDep -> ImplG`. -/
def sC4 : St := { st0 with bindings := [("IDep", ⟨.cls "ImplG", false, false⟩)] }

/-- A class `W` whose constructor parameter `dflt` is annotated
`Optional[G]` with default `None`, and a concrete auto-wirable class `G`
that is not bound in the container. -/
def ctC8 : ClassTable :=
  [("W", ⟨"W", [⟨"dflt", some (.union [.cls "G" false] true), some .vnone,
      false⟩], false, ["W", "builtins.object"]⟩),
   ("G", ⟨"G", [], false, ["G", "builtins.object"]⟩)]

/-- A class `Impl` whose ancestor chain contains `Base`. -/
def ct7 : ClassTable :=
  [("Impl", ⟨"Impl", [], false, ["Impl", "Base", "builtins.object"]⟩)]

/-- A container with one resolving callback (identifier 2) and one
after-resolving callback (identifier 1), both registered for the ancestor
key `Base`. -/
def s7 : St := { st0 with
  resolvingCbs := [("Base", [2])]
  afterCbs := [("Base", [1])] }

/-! ### Basic lemmas about the association-list operations -/

theorem lookupA_insertA_self {α : Type} (m : List (String × α)) (k : String)
    (v : α) : lookupA (insertA m k v) k = some v := by
  simp [insertA, lookupA]

theorem lookupA_eraseA {α : Type} (m : List (String × α)) (k k' : String) :
    lookupA (eraseA m k) k' = if k = k' then none else lookupA m k' := by
  induction m with
  | nil => simp [eraseA, lookupA]
  | cons e rest ih =>
      obtain ⟨a, b⟩ := e
      by_cases hak : a = k
      · subst hak
        by_cases hk : a = k'
        · subst hk
          simp [eraseA, lookupA, ih]
        · simp [eraseA, lookupA, hk, ih]
      · by_cases hk : a = k'
        · subst hk
          have : ¬ k = a := fun h => hak h.symm
          simp [eraseA, lookupA, hak, this]
        · simp [eraseA, lookupA, hak, hk, ih]

theorem lookupA_eraseA_self {α : Type} (m : List (String × α)) (k : String) :
    lookupA (eraseA m k) k = none := by
  simp [lookupA_eraseA]

theorem lookupA_insertA_ne {α : Type} (m : List (String × α)) (k k' : String)
    (v : α) (h : k ≠ k') : lookupA (insertA m k v) k' = lookupA m k' := by
  simp [insertA, lookupA, h, lookupA_eraseA]

theorem Frame.refl (s : St) : Frame s s :=
  ⟨rfl, rfl, rfl, rfl, rfl, rfl, rfl, rfl, rfl, rfl⟩

theorem Frame.trans {s1 s2 s3 : St} (h1 : Frame s1 s2) (h2 : Frame s2 s3) :
    Frame s1 s3 :=
  ⟨h2.bindings.trans h1.bindings, h2.aliases.trans h1.aliases,
   h2.gb.trans h1.gb, h2.bc.trans h1.bc, h2.gr.trans h1.gr,
   h2.rc.trans h1.rc, h2.ga.trans h1.ga, h2.ac.trans h1.ac,
   h2.rbc.trans h1.rbc, h2.env.trans h1.env⟩

theorem frame_cacheAndMark (s : St) (key : String) (ke : Bool) (v : Value) :
    Frame s (cacheAndMark s key ke v) := by
  unfold cacheAndMark
  constructor <;> (dsimp only []; split <;> try split) <;> rfl

theorem frame_resolveDeps (mk : St → TypeRef → RRes) (cname : String)
    (hmk : ∀ s t, Frame s (mk s t).st) :
    ∀ (ps : List Param) (s : St) (kwargs deps : List (String × Value)),
      Frame s (resolveDeps mk cname s ps kwargs deps).st := by
  intro ps
  induction ps with
  | nil => intro s kwargs deps; exact Frame.refl s
  | cons p rest ih =>
      intro s kwargs deps
      unfold resolveDeps
      dsimp only []
      repeat' split
      all_goals first
        | exact ih _ _ _
        | exact Frame.refl _
        | exact hmk _ _
        | exact Frame.trans (hmk _ _) (ih _ _ _)

theorem frame_buildClass (mk : St → TypeRef → RRes) (ct : ClassTable)
    (s : St) (cname : String) (kwargs : List (String × Value))
    (hmk : ∀ s t, Frame s (mk s t).st) :
    Frame s (buildClass mk ct s cname kwargs).st := by
  unfold buildClass
  dsimp only []
  repeat' split
  all_goals first
    | exact Frame.refl _
    | exact frame_resolveDeps mk cname hmk _ _ kwargs []
    | exact Frame.trans (frame_resolveDeps mk cname hmk _ _ kwargs [])
        ⟨rfl, rfl, rfl, rfl, rfl, rfl, rfl, rfl, rfl, rfl⟩

theorem frame_buildConcrete (mk : St → TypeRef → RRes) (fenv : FactoryEnv)
    (ct : ClassTable) (s : St) (con : Concrete)
    (kwargs : List (String × Value)) (hmk : ∀ s t, Frame s (mk s t).st) :
    Frame s (buildConcrete mk fenv ct s con kwargs).st := by
  cases con with
  | cls c => exact frame_buildClass mk ct s c kwargs hmk
  | factory f => exact Frame.refl s
  | lit v => exact Frame.refl s

theorem frame_afterBuild (ct : ClassTable) (key : String)
    (ke re : Bool) (tr0 : List Nat) (built : RRes) :
    Frame built.st (afterBuild ct key ke re tr0 built).st := by
  unfold afterBuild
  split
  · exact Frame.refl _
  · exact frame_cacheAndMark _ _ _ _

theorem frame_resolve (fenv : FactoryEnv) (ct : ClassTable) :
    ∀ (n : Nat) (s : St) (t : TypeRef) (kwargs : List (String × Value))
      (re : Bool), Frame s (resolve fenv ct n s t kwargs re).st := by
  intro n
  induction n with
  | zero => intro s t kwargs re; exact Frame.refl s
  | succ n ih =>
      intro s t kwargs re
      unfold resolve
      dsimp only []
      repeat' split
      all_goals first
        | exact Frame.refl _
        | exact Frame.trans
            (frame_buildConcrete _ fenv ct _ _ kwargs
              (fun s' t' => ih s' t' [] true))
            (frame_afterBuild ct _ _ _ _ _)

/-! ### Small facts about `cacheAndMark`, caches and canonical keys -/

theorem memA_false_lookupA {α : Type} {m : List (String × α)} {k : String}
    (h : memA m k = false) : lookupA m k = none := by
  unfold memA at h
  cases hl : lookupA m k with
  | none => rfl
  | some v => rw [hl] at h; simp at h

theorem is_scoped_false_lookup {s : St} {key : String}
    (h : is_scoped s key = false) : lookupA s.scopedInstances key = none := by
  unfold is_scoped at h
  have : memA s.scopedInstances key = false := by
    cases hm : memA s.scopedInstances key with
    | false => rfl
    | true => rw [hm] at h; simp at h
  exact memA_false_lookupA this

theorem is_shared_scopedIrrelevant (s : St) (key : String)
    (z : List (String × Value)) :
    is_shared { s with scopedInstances := z } key = is_shared s key := rfl

theorem cam_scopedInstances (s : St) (key : String) (ke : Bool) (v : Value) :
    (cacheAndMark s key ke v).scopedInstances =
      if ke && is_scoped s key then insertA s.scopedInstances key v
      else s.scopedInstances := by
  unfold cacheAndMark
  dsimp only []
  split <;> split <;> rfl

theorem cam_instances (s : St) (key : String) (ke : Bool) (v : Value) :
    (cacheAndMark s key ke v).instances =
      if ke && is_shared s key then insertA s.instances key v
      else s.instances := by
  unfold cacheAndMark
  dsimp only []
  split
  · rw [show is_shared { s with
        scopedInstances := insertA s.scopedInstances key v } key
      = is_shared s key from rfl]
    split <;> rfl
  · split <;> rfl

theorem cam_resolvedKeys (s : St) (key : String) (ke : Bool) (v : Value) :
    (cacheAndMark s key ke v).resolvedKeys = insertA s.resolvedKeys key true := by
  unfold cacheAndMark
  dsimp only []
  split <;> split <;> rfl

/-- A scoped cache hit (lines 338-339): when the canonical key has a scoped
cached instance and no explicit parameters were given, `resolve` returns
the cached instance unchanged — the environment predicate is not consulted
(no hypothesis about `s.envResolver` is needed). -/
theorem resolve_scoped_hit (fenv : FactoryEnv) (ct : ClassTable) (n : Nat)
    (s : St) (t : TypeRef) (v : Value) (re : Bool)
    (h : lookupA s.scopedInstances (get_alias s.aliases (class_to_string t))
      = some v) :
    resolve fenv ct (n + 1) s t [] re =
      ⟨.ok v, s,
        if re then
          fire_before_resolving_callbacks s
            (get_alias s.aliases (class_to_string t))
        else []⟩ := by
  unfold resolve
  simp [cacheHit, h]

/-- A shared-instance cache hit (lines 341-342). -/
theorem resolve_instance_hit (fenv : FactoryEnv) (ct : ClassTable) (n : Nat)
    (s : St) (t : TypeRef) (v : Value) (re : Bool)
    (hsc : lookupA s.scopedInstances
      (get_alias s.aliases (class_to_string t)) = none)
    (h : lookupA s.instances (get_alias s.aliases (class_to_string t))
      = some v) :
    resolve fenv ct (n + 1) s t [] re =
      ⟨.ok v, s,
        if re then
          fire_before_resolving_callbacks s
            (get_alias s.aliases (class_to_string t))
        else []⟩ := by
  unfold resolve
  simp [cacheHit, h, hsc]

/-- The check `resolved()` consults the resolved marks and the instance cache at the
fully chased alias (chasing a non-alias is the identity). -/
theorem resolvedQ_eq (s : St) (t : TypeRef) :
    resolvedQ s t =
      (memA s.resolvedKeys (get_alias s.aliases (class_to_string t)) ||
        memA s.instances (get_alias s.aliases (class_to_string t))) := by
  unfold resolvedQ
  dsimp only []
  cases ha : is_alias s (class_to_string t) with
  | true => rfl
  | false =>
      have : lookupA s.aliases (class_to_string t) = none := by
        unfold is_alias at ha
        exact memA_false_lookupA ha
      unfold get_alias getAliasF
      rw [this]
      simp

/-- C2.  For every key bound via `singleton` (its binding is marked
`shared`), a second `make` with no explicit parameters returns exactly the
instance the first `make` returned: the first call stores the instance in
the shared-instance cache (lines 366-367) and the second call returns the
cached entry (lines 341-342). -/
theorem C2_singleton_identity (fenv : FactoryEnv) (ct : ClassTable) (n : Nat)
    (s : St) (t : TypeRef) (v : Value) (s' : St) (tr : List Nat) (b : Binding)
    (hb : lookupA s.bindings (get_alias s.aliases (class_to_string t)) = some b)
    (hsh : b.shared = true)
    (h1 : resolve fenv ct n s t [] true = ⟨.ok v, s', tr⟩) :
    (resolve fenv ct n s' t [] true).r = .ok v := by
  cases n with
  | zero =>
      exact absurd h1 (by simp [resolve])
  | succ m =>
      unfold resolve at h1
      dsimp only [] at h1
      split at h1
      · -- scoped cache hit
        next v0 heq =>
          simp only [cacheHit, List.isEmpty_nil, if_true] at heq
          simp only [RRes.mk.injEq] at h1
          obtain ⟨hv, hs, -⟩ := h1
          injection hv with hv
          subst hv; subst hs
          rw [resolve_scoped_hit fenv ct m s t v0 true heq]
      · next hmiss1 =>
        split at h1
        · -- shared instance cache hit
          next v0 heq =>
            simp only [cacheHit, List.isEmpty_nil, if_true] at heq hmiss1
            simp only [RRes.mk.injEq] at h1
            obtain ⟨hv, hs, -⟩ := h1
            injection hv with hv
            subst hv; subst hs
            rw [resolve_instance_hit fenv ct m s t v0 true hmiss1 heq]
        · next hmiss2 =>
          split at h1
          · -- no concrete: EntryNotFound, contradicting the ok hypothesis
            simp only [RRes.mk.injEq] at h1
            exact absurd h1.1 (by simp)
          · next con hcon =>
              unfold afterBuild at h1
              split at h1
              · simp only [RRes.mk.injEq] at h1
                exact absurd h1.1 (by simp)
              · next inst heqb =>
                  dsimp only [] at h1
                  simp only [RRes.mk.injEq] at h1
                  obtain ⟨hv, hs, -⟩ := h1
                  injection hv with hv
                  subst hv
                  -- the ok value is the built instance
                  set key := get_alias s.aliases (class_to_string t) with hkey
                  set bst := (buildConcrete
                    (fun s'' t' => resolve fenv ct m s'' t' [] true)
                    fenv ct s con []).st with hbst
                  have hfr : Frame s bst :=
                    frame_buildConcrete _ fenv ct s con []
                      (fun s'' t' => frame_resolve fenv ct m s'' t' [] true)
                  have hs' : s' = cacheAndMark bst key true inst := by
                    rw [← hs]; rfl
                  have halias : s'.aliases = s.aliases := by
                    rw [hs']
                    have h2 := (frame_cacheAndMark bst key true inst).aliases
                    rw [h2, hfr.aliases]
                  have hkey' : get_alias s'.aliases (class_to_string t) = key := by
                    rw [halias]
                  cases hsc : is_scoped bst key with
                  | true =>
                      have hlook : lookupA s'.scopedInstances key = some inst := by
                        rw [hs', cam_scopedInstances, hsc]
                        simp [lookupA_insertA_self]
                      rw [resolve_scoped_hit fenv ct m s' t inst true
                        (by rw [hkey']; exact hlook)]
                  | false =>
                      have hscl : s'.scopedInstances = bst.scopedInstances := by
                        rw [hs', cam_scopedInstances, hsc]; simp
                      have hmiss : lookupA s'.scopedInstances key = none := by
                        rw [hscl]; exact is_scoped_false_lookup hsc
                      have hshared : is_shared bst key = true := by
                        unfold is_shared
                        rw [hfr.bindings, hb]
                        simp [hsh]
                      have hlook : lookupA s'.instances key = some inst := by
                        rw [hs', cam_instances, hshared]
                        simp [lookupA_insertA_self]
                      rw [resolve_instance_hit fenv ct m s' t inst true
                        (by rw [hkey']; exact hmiss)
                        (by rw [hkey']; exact hlook)]

/-- C2 witness: in a container where `"K"` is bound via `singleton` to the
no-argument class `C`, the first `make("K")` yields the object with
identity 0 and the second `make("K")` returns that identical object. -/
theorem C2_singleton_identity_witness :
    (resolve fenv0 ctC 3
      (resolve fenv0 ctC 3 sShared (.str "K") [] true).st
      (.str "K") [] true).r = .ok (.obj "C" 0 []) :=
  C2_singleton_identity fenv0 ctC 3 sShared (.str "K") (.obj "C" 0 [])
    (resolve fenv0 ctC 3 sShared (.str "K") [] true).st
    (resolve fenv0 ctC 3 sShared (.str "K") [] true).tr
    ⟨.cls "C", true, false⟩ rfl rfl rfl

/-- C5 counterexample: `"K"` is scoped, has a cached scoped instance with
identity 7, and the externally supplied environment predicate currently
rejects every environment (`current_environment_is` is `false`).  The claim
says this lookup must be treated as a cache miss with a fresh instance
built; instead `make("K")` returns the cached instance (identity 7) and
allocates nothing (`nextId` stays 100). -/
theorem C5_counterexample :
    current_environment_is sScopedEnv ["production"] = false ∧
    (resolve fenv0 ctC 5 sScopedEnv (.str "K") [] true).r
      = .ok (.obj "C" 7 []) ∧
    (resolve fenv0 ctC 5 sScopedEnv (.str "K") [] true).st.nextId = 100 :=
  ⟨rfl, rfl, rfl⟩

/-- C5 (amended).  The scoped-cache lookup of `resolve` (lines 337-339)
never consults the environment predicate: whenever a scoped cached instance
exists for the canonical key and no explicit parameters are given, `make`
returns the cached instance with the container unchanged, and the result is
the same under every choice of `environment_resolver`
(`current_environment_is` exists, lines 858-871, but `resolve` does not
call it). -/
theorem C5_scoped_cache_ignores_environment (fenv : FactoryEnv)
    (ct : ClassTable) (n : Nat) (s : St) (t : TypeRef) (v : Value) (re : Bool)
    (h : lookupA s.scopedInstances (get_alias s.aliases (class_to_string t))
      = some v) :
    (resolve fenv ct (n + 1) s t [] re).r = .ok v ∧
    (resolve fenv ct (n + 1) s t [] re).st = s ∧
    ∀ e, (resolve fenv ct (n + 1) { s with envResolver := e } t [] re).r
      = .ok v := by
  refine ⟨?_, ?_, ?_⟩
  · rw [resolve_scoped_hit fenv ct n s t v re h]
  · rw [resolve_scoped_hit fenv ct n s t v re h]
  · intro e
    rw [resolve_scoped_hit fenv ct n { s with envResolver := e } t v re h]

/-- C5 witness: the amended statement evaluated on the concrete scoped
container with the rejecting environment resolver. -/
theorem C5_scoped_cache_ignores_environment_witness :
    (resolve fenv0 ctC 5 sScopedEnv (.str "K") [] true).r
      = .ok (.obj "C" 7 []) ∧
    (resolve fenv0 ctC 5 sScopedEnv (.str "K") [] true).st = sScopedEnv ∧
    ∀ e, (resolve fenv0 ctC 5
      { sScopedEnv with envResolver := e } (.str "K") [] true).r
      = .ok (.obj "C" 7 []) :=
  C5_scoped_cache_ignores_environment fenv0 ctC 4 sScopedEnv (.str "K")
    (.obj "C" 7 []) true rfl

/-- C6 counterexample: `"K"` has a transient binding (not shared, not
scoped, never instance-bound).  Before `make("K")`, `resolved("K")` is
`False`; after a successful `make("K")` it is `True`, because line 369
marks every resolved key unconditionally — contradicting the claim that a
transient binding reports `resolved() == False` at all times. -/
theorem C6_counterexample :
    lookupA sTrans.bindings "K" = some ⟨.lit (.vstr "x"), false, false⟩ ∧
    resolvedQ sTrans (.str "K") = false ∧
    (resolve fenv0 [] 3 sTrans (.str "K") [] true).r = .ok (.vstr "x") ∧
    resolvedQ (resolve fenv0 [] 3 sTrans (.str "K") [] true).st (.str "K")
      = true :=
  ⟨rfl, rfl, rfl, rfl⟩

/-- C6 (amended).  `resolve` marks every key it actually builds as resolved
(line 369 runs for every lifetime): after a successful uncached `make` of a
transient binding — not shared, not scoped, no cached instance —
`resolved()` answers `True`, not `False`. -/
theorem C6_transient_marked_resolved (fenv : FactoryEnv) (ct : ClassTable)
    (n : Nat) (s : St) (t : TypeRef) (b : Binding) (v : Value) (s' : St)
    (tr : List Nat)
    (hb : lookupA s.bindings (get_alias s.aliases (class_to_string t))
      = some b)
    (hsh : b.shared = false) (hscd : b.scopedFlag = false)
    (hni : lookupA s.instances (get_alias s.aliases (class_to_string t))
      = none)
    (hns : lookupA s.scopedInstances (get_alias s.aliases (class_to_string t))
      = none)
    (h1 : resolve fenv ct n s t [] true = ⟨.ok v, s', tr⟩) :
    resolvedQ s' t = true := by
  cases n with
  | zero => exact absurd h1 (by simp [resolve])
  | succ m =>
      unfold resolve at h1
      dsimp only [] at h1
      rw [resolvedQ_eq]
      split at h1
      · next v0 heq =>
          simp only [cacheHit, List.isEmpty_nil, if_true] at heq
          rw [heq] at hns
          exact absurd hns (by simp)
      · split at h1
        · next v0 heq =>
            simp only [cacheHit, List.isEmpty_nil, if_true] at heq
            rw [heq] at hni
            exact absurd hni (by simp)
        · split at h1
          · simp only [RRes.mk.injEq] at h1
            exact absurd h1.1 (by simp)
          · next con hcon =>
              unfold afterBuild at h1
              split at h1
              · simp only [RRes.mk.injEq] at h1
                exact absurd h1.1 (by simp)
              · next inst heqb =>
                  dsimp only [] at h1
                  simp only [RRes.mk.injEq] at h1
                  obtain ⟨hv, hs, -⟩ := h1
                  set key := get_alias s.aliases (class_to_string t) with hkey
                  set bst := (buildConcrete
                    (fun s'' t' => resolve fenv ct m s'' t' [] true)
                    fenv ct s con []).st with hbst
                  have hfr : Frame s bst :=
                    frame_buildConcrete _ fenv ct s con []
                      (fun s'' t' => frame_resolve fenv ct m s'' t' [] true)
                  have hs' : s' = cacheAndMark bst key true inst := by
                    rw [← hs]; rfl
                  have halias : s'.aliases = s.aliases := by
                    rw [hs']
                    have h2 := (frame_cacheAndMark bst key true inst).aliases
                    rw [h2, hfr.aliases]
                  rw [halias]
                  have hres : lookupA s'.resolvedKeys key = some true := by
                    rw [hs', cam_resolvedKeys]
                    exact lookupA_insertA_self _ _ _
                  have : memA s'.resolvedKeys key = true := by
                    unfold memA
                    rw [hres]; rfl
                  rw [this]
                  simp

theorem getAlias_of_none {al : List (String × String)} {k : String}
    (h : lookupA al k = none) : get_alias al k = k := by
  unfold get_alias getAliasF
  rw [h]

/-- A `bind` on a key with no registered rebinding callbacks takes the
plain path: drop the stale instances and alias, store the binding, fire
nothing. -/
theorem bind_simple (fenv : FactoryEnv) (ct : ClassTable) (fuel : Nat)
    (s : St) (abstract : TypeRef) (c : Concrete) (sh sc : Bool)
    (h : lookupA s.rebindingCbs (class_to_string abstract) = none) :
    bind fenv ct fuel s abstract (some c) sh sc =
      ⟨.ok (), { drop_stale_instances s (class_to_string abstract) with
        bindings := insertA s.bindings (class_to_string abstract)
          ⟨c, sh, sc⟩ }, []⟩ := by
  unfold bind
  dsimp only []
  rw [show ({ drop_stale_instances s (class_to_string abstract) with
      bindings := insertA (drop_stale_instances s (class_to_string abstract)).bindings
        (class_to_string abstract) ⟨c, sh, sc⟩ } : St).rebindingCbs
    = s.rebindingCbs from rfl]
  unfold memA
  rw [h]
  simp
  rfl

/-- A successful `_build` of a class concrete always produces an instance
of that very class. -/
theorem buildClass_ok_shape {mk : St → TypeRef → RRes} {ct : ClassTable}
    {s : St} {c : String} {kw : List (String × Value)} {v : Value}
    (h : (buildClass mk ct s c kw).r = .ok v) :
    ∃ i fs, v = .obj c i fs := by
  unfold buildClass at h
  split at h
  · exact absurd h (by simp)
  · split at h
    · exact absurd h (by simp)
    · dsimp only [] at h
      split at h
      · exact absurd h (by simp)
      · next deps heq =>
          dsimp only [] at h
          injection h with h
          exact ⟨_, _, h.symm⟩

/-- In the cyclic configuration, resolution of `A` and of `B` exhausts
every finite recursion budget: each extra unit of fuel only reaches the
next turn of the `A -> B -> A -> ...` recursion. -/
theorem cyc_pair : ∀ n : Nat,
    (resolve fenv0 ctCyc n sCyc (.cls "A" false) [] true).r = .error .fuel ∧
    (resolve fenv0 ctCyc n sCyc (.cls "B" false) [] true).r = .error .fuel := by
  intro n
  induction n with
  | zero => exact ⟨rfl, rfl⟩
  | succ n ih =>
      obtain ⟨ihA, ihB⟩ := ih
      constructor
      · unfold resolve
        simp [class_to_string, get_alias, getAliasF, lookupA, cacheHit,
          concreteFor, buildConcrete, buildClass,
          resolveDeps, afterBuild, unwrapAnnot, annotTarget, boundAnnot,
          bound, is_alias, memA, fire_before_resolving_callbacks,
          sCyc, st0]
        simp only [sCyc, st0] at ihB
        rw [ihB]
      · unfold resolve
        simp [class_to_string, get_alias, getAliasF, lookupA, cacheHit,
          concreteFor, buildConcrete, buildClass,
          resolveDeps, afterBuild, unwrapAnnot, annotTarget, boundAnnot,
          bound, is_alias, memA, fire_before_resolving_callbacks,
          sCyc, st0]
        simp only [sCyc, st0] at ihA
        rw [ihA]

set_option maxRecDepth 4000 in
/-- C1 counterexample: with `A -> needs B` and `B -> needs A` bound,
`make(A)` run with a recursion budget of 30 — far more than the two-key
cycle would need for any stack-based detection — produces neither an
instance nor a `CircularDependency` error: it runs out of budget, still
recursing.  The container has no BuildStack and never raises
`CircularDependency`. -/
theorem C1_counterexample :
    (resolve fenv0 ctCyc 30 sCyc (.str "A") [] true).r = .error .fuel := rfl

/-- C1 (amended).  `make(A)` on the cyclic pair does not raise
`CircularDependency` and does not terminate: for every recursion budget
`n`, the resolution exhausts the budget (the Python original recurses
until the interpreter's recursion limit), and the result is never a
`CircularDependency` error for any cycle. -/
theorem C1_cycle_recursion_unbounded : ∀ n : Nat,
    (resolve fenv0 ctCyc n sCyc (.str "A") [] true).r = .error .fuel ∧
    ∀ cyc, (resolve fenv0 ctCyc n sCyc (.str "A") [] true).r
      ≠ .error (.circular cyc) := by
  intro n
  have h : (resolve fenv0 ctCyc n sCyc (.str "A") [] true).r = .error .fuel := by
    cases n with
    | zero => rfl
    | succ m =>
        have ihB := (cyc_pair m).2
        unfold resolve
        simp [class_to_string, get_alias, getAliasF, lookupA, cacheHit,
          concreteFor, buildConcrete, buildClass,
          resolveDeps, afterBuild, unwrapAnnot, annotTarget, boundAnnot,
          bound, is_alias, memA, fire_before_resolving_callbacks,
          sCyc, st0]
        simp only [sCyc, st0] at ihB
        rw [ihB]
  exact ⟨h, fun cyc => by rw [h]; simp⟩

/-- C3.  `bind(K, A)`, `make(K)`, `bind(K, B)`, `make(K)` (all bindings
shared, no rebinding callbacks registered for `K`): whatever instance the
final `make(K)` returns is an instance of class `B`, and in particular is
never an instance of class `A` — the second `bind` dropped the stale
cached instance (lines 381-395 via line 473), so no object built from the
superseded binding can be returned. -/
theorem C3_rebind_invalidation (fenv : FactoryEnv) (ct : ClassTable)
    (n : Nat) (s : St) (k aName bName : String) (v : Value)
    (hrb : lookupA s.rebindingCbs k = none)
    (hne : aName ≠ bName)
    (h4 : (resolve fenv ct n
        (bind fenv ct n
          (resolve fenv ct n
            (bind fenv ct n s (.str k) (some (.cls aName)) true false).st
            (.str k) [] true).st
          (.str k) (some (.cls bName)) true false).st
        (.str k) [] true).r = .ok v) :
    (∃ i fs, v = .obj bName i fs) ∧ ∀ i fs, v ≠ .obj aName i fs := by
  have hb1 := bind_simple fenv ct n s (.str k) (.cls aName) true false hrb
  set s1 : St :=
    (bind fenv ct n s (.str k) (some (.cls aName)) true false).st with hs1
  have hs1eq : s1 = { drop_stale_instances s k with
      bindings := insertA s.bindings k ⟨.cls aName, true, false⟩ } := by
    rw [hs1, hb1]
    rfl
  set s2 : St := (resolve fenv ct n s1 (.str k) [] true).st with hs2
  have hf2 : Frame s1 s2 := frame_resolve fenv ct n s1 (.str k) [] true
  have hrb2 : lookupA s2.rebindingCbs k = none := by
    rw [hf2.rbc, hs1eq]; exact hrb
  have hb3 := bind_simple fenv ct n s2 (.str k) (.cls bName) true false hrb2
  set s3 : St :=
    (bind fenv ct n s2 (.str k) (some (.cls bName)) true false).st with hs3
  have hs3eq : s3 = { drop_stale_instances s2 k with
      bindings := insertA s2.bindings k ⟨.cls bName, true, false⟩ } := by
    rw [hs3, hb3]
    rfl
  suffices hsh : ∃ i fs, v = .obj bName i fs by
    refine ⟨hsh, ?_⟩
    obtain ⟨i, fs, rfl⟩ := hsh
    intro i' fs' hcontra
    exact hne (by injection hcontra with h1 _ _; exact h1.symm ▸ rfl)
  cases n with
  | zero => exact absurd h4 (by simp [resolve])
  | succ m =>
      unfold resolve at h4
      dsimp only [] at h4
      simp only [class_to_string] at h4
      have hal : lookupA s3.aliases k = none := by
        rw [hs3eq]; exact lookupA_eraseA_self _ _
      have hkey : get_alias s3.aliases k = k := getAlias_of_none hal
      have hsc : lookupA s3.scopedInstances k = none := by
        rw [hs3eq]; exact lookupA_eraseA_self _ _
      have hii : lookupA s3.instances k = none := by
        rw [hs3eq]; exact lookupA_eraseA_self _ _
      have hbind : lookupA s3.bindings k = some ⟨.cls bName, true, false⟩ := by
        rw [hs3eq]; exact lookupA_insertA_self _ _ _
      rw [hkey, hsc, hii] at h4
      simp only [cacheHit, List.isEmpty_nil, if_true, concreteFor] at h4
      rw [hbind] at h4
      dsimp only [] at h4
      unfold afterBuild buildConcrete at h4
      split at h4
      · exact absurd h4 (by simp)
      · next inst heqb =>
          dsimp only [] at h4
          injection h4 with h4
          exact h4 ▸ buildClass_ok_shape heqb

/-- C3 witness: the rebind scenario run concretely — `bind("K", A)`,
`make("K")` (builds the `A` object with identity 0 and caches it),
`bind("K", B)`, `make("K")` — ends in the `B` object with identity 1. -/
theorem C3_rebind_invalidation_witness :
    (∃ i fs, Value.obj "B" 1 [] = .obj "B" i fs) ∧
    ∀ i fs, Value.obj "B" 1 [] ≠ .obj "A" i fs :=
  C3_rebind_invalidation fenv0 ctAB 3 st0 "K" "A" "B" (.obj "B" 1 [])
    rfl (by decide) rfl

/-- C4.  The repository's tests register contextual bindings through
`when(consumer).needs(dependency).give(impl)`, but `Container` defines
neither `when` nor the `add_contextual_binding` that
`ContextualBindingBuilder.give` calls, and `resolve` (lines 344-353)
consults only the global `_bindings` registry.  Concretely: with the
global binding `IDep -> ImplG`, building `Consumer1` (the would-be
designated consumer) and building `Consumer2` both inject an `ImplG`
instance — the dependency resolution is identical for every consumer, and
`concreteFor` depends on nothing but the bindings registry and the
requested key. -/
theorem C4_contextual_binding_ignored :
    (resolve fenv0 ctC4 10 sC4 (.cls "Consumer1" false) [] true).r
      = .ok (.obj "Consumer1" 1 [("dep", .obj "ImplG" 0 [])]) ∧
    (resolve fenv0 ctC4 10 sC4 (.cls "Consumer2" false) [] true).r
      = .ok (.obj "Consumer2" 1 [("dep", .obj "ImplG" 0 [])]) ∧
    ∀ (s s' : St) (key : String) (a : TypeRef),
      s.bindings = s'.bindings → concreteFor s key a = concreteFor s' key a := by
  refine ⟨rfl, rfl, ?_⟩
  intro s s' key a h
  unfold concreteFor
  rw [h]

/-- C4 witness: the bindings-only dependence of `concreteFor`, discharged
on two states that differ everywhere except the registry. -/
theorem C4_contextual_binding_ignored_witness :
    concreteFor sC4 "IDep" (.str "IDep")
      = concreteFor { st0 with
          bindings := [("IDep", ⟨.cls "ImplG", false, false⟩)]
          resolvingCbs := [("IDep", [5])]
          nextId := 42 } "IDep" (.str "IDep") :=
  C4_contextual_binding_ignored.2.2 sC4 _ "IDep" (.str "IDep") rfl

/-- C6 witness: the amended statement at the concrete transient binding of
`"K"` to the literal `"x"`. -/
theorem C6_transient_marked_resolved_witness :
    resolvedQ (resolve fenv0 [] 3 sTrans (.str "K") [] true).st (.str "K")
      = true :=
  C6_transient_marked_resolved fenv0 [] 3 sTrans (.str "K")
    ⟨.lit (.vstr "x"), false, false⟩ (.vstr "x")
    (resolve fenv0 [] 3 sTrans (.str "K") [] true).st
    (resolve fenv0 [] 3 sTrans (.str "K") [] true).tr
    rfl rfl rfl rfl rfl rfl

theorem mem_filterNe {key b : String} : ∀ {l : List String},
    b ∈ filterNe key l ↔ b ∈ l ∧ b ≠ key := by
  intro l
  induction l with
  | nil => simp [filterNe]
  | cons x rest ih =>
      by_cases hx : x = key
      · rw [show filterNe key (x :: rest) = filterNe key rest by
          simp [filterNe, hx]]
        rw [ih]
        constructor
        · rintro ⟨h1, h2⟩; exact ⟨List.mem_cons_of_mem _ h1, h2⟩
        · rintro ⟨h1, h2⟩
          rcases List.mem_cons.mp h1 with rfl | h1
          · exact absurd hx h2
          · exact ⟨h1, h2⟩
      · simp [filterNe, hx, ih]
        constructor
        · rintro (rfl | ⟨h1, h2⟩)
          · exact ⟨Or.inl rfl, hx⟩
          · exact ⟨Or.inr h1, h2⟩
        · rintro ⟨rfl | h1, h2⟩
          · exact Or.inl rfl
          · exact Or.inr ⟨h1, h2⟩

theorem nodup_filterNe {key : String} : ∀ {l : List String},
    l.Nodup → (filterNe key l).Nodup := by
  intro l
  induction l with
  | nil => intro h; simp [filterNe]
  | cons x rest ih =>
      intro h
      rw [List.nodup_cons] at h
      by_cases hx : x = key
      · simp [filterNe, hx]
        exact ih h.2
      · simp [filterNe, hx, List.nodup_cons]
        refine ⟨fun hmem => h.1 (mem_filterNe.mp hmem).1, ih h.2⟩

theorem mro_foldl_eq (key : String) (f : String → List Nat) :
    ∀ (l : List String) (init : List Nat),
      l.foldl (fun acc b => if b = key then acc else acc ++ f b) init
        = init ++ ((filterNe key l).map f).flatten := by
  intro l
  induction l with
  | nil => intro init; simp [filterNe]
  | cons x rest ih =>
      intro init
      by_cases hx : x = key
      · simp [List.foldl_cons, hx, filterNe, ih]
      · simp [List.foldl_cons, hx, filterNe, ih, List.append_assoc]

/-- The resolving-phase firing decomposed: global callbacks, then the
key-specific ones, then — once per distinct ancestor key other than the
requested one — the callbacks registered on the instance's ancestor
chain. -/
theorem fire_resolving_eq (ct : ClassTable) (s : St) (key : String)
    (inst : Value) :
    fire_resolving_callbacks ct s key inst
      = s.globalResolvingCbs ++ (lookupA s.resolvingCbs key).getD []
        ++ ((filterNe key (mroOf ct inst)).map
            (fun b => (lookupA s.resolvingCbs b).getD [])).flatten := by
  unfold fire_resolving_callbacks
  rw [mro_foldl_eq]
  simp

theorem count_join_single (f : String → List Nat) (c : Nat) :
    ∀ (l : List String) (b : String), l.Nodup → b ∈ l →
      (∀ b', b' ∈ l → b' ≠ b → (f b').count c = 0) →
      ((l.map f).flatten).count c = (f b).count c := by
  intro l
  induction l with
  | nil => intro b _ hb; simp at hb
  | cons x rest ih =>
      intro b hnd hb hz
      rw [List.nodup_cons] at hnd
      simp only [List.map_cons, List.flatten_cons, List.count_append]
      rcases List.mem_cons.mp hb with rfl | hbr
      · have : ((rest.map f).flatten).count c = 0 := by
          rw [List.count_eq_zero]
          intro hc
          rw [List.mem_flatten] at hc
          obtain ⟨l', hl', hcl⟩ := hc
          rw [List.mem_map] at hl'
          obtain ⟨b', hb', rfl⟩ := hl'
          have : (f b').count c = 0 :=
            hz b' (List.mem_cons_of_mem _ hb') (fun h => hnd.1 (h ▸ hb'))
          rw [List.count_eq_zero] at this
          exact this hcl
        rw [this]
        simp
      · have hx : (f x).count c = 0 :=
          hz x (List.mem_cons_self _ _) (fun h => hnd.1 (h ▸ hbr))
        rw [hx, ih b hnd.2 hbr
          (fun b' hb' hne => hz b' (List.mem_cons_of_mem _ hb') hne)]
        simp

/-- C7 counterexample: callback 1 is registered in the after-resolving
phase for the ancestor key `Base` of the built instance's class `Impl`, yet
the after-resolving firing for `Impl` runs no callback at all —
`_fire_after_resolving_callbacks` (lines 274-288) does not walk the
ancestor chain, while the resolving phase (lines 250-272) does (callback 2,
registered on `Base` for the resolving phase, fires). -/
theorem C7_counterexample :
    lookupA s7.afterCbs "Base" = some [1] ∧
    "Base" ∈ mroOf ct7 (.obj "Impl" 0 []) ∧
    fire_after_resolving_callbacks s7 "Impl" = [] ∧
    fire_resolving_callbacks ct7 s7 "Impl" (.obj "Impl" 0 []) = [2] :=
  ⟨rfl, by decide, rfl, rfl⟩

/-- C7 (amended).  In the resolving phase, global callbacks fire first,
then the key-specific ones, and every callback registered against an
ancestor key of the built instance's class (other than the requested key)
also fires — each distinct ancestor key exactly once, so a callback
registered once on a single ancestor fires exactly once.  In the
after-resolving phase, global callbacks fire before key-specific ones, but
the firing is exactly global-then-key-specific: the ancestor chain is not
walked. -/
theorem C7_callback_phases (ct : ClassTable) (s : St) (key : String)
    (inst : Value) :
    (fire_resolving_callbacks ct s key inst).take s.globalResolvingCbs.length
      = s.globalResolvingCbs ∧
    (fire_after_resolving_callbacks s key).take s.globalAfterCbs.length
      = s.globalAfterCbs ∧
    ((fire_resolving_callbacks ct s key inst).drop
        s.globalResolvingCbs.length).take
        ((lookupA s.resolvingCbs key).getD []).length
      = (lookupA s.resolvingCbs key).getD [] ∧
    fire_after_resolving_callbacks s key
      = s.globalAfterCbs ++ (lookupA s.afterCbs key).getD [] ∧
    (∀ b, b ∈ mroOf ct inst → b ≠ key →
      ∀ c, c ∈ (lookupA s.resolvingCbs b).getD [] →
        c ∈ fire_resolving_callbacks ct s key inst) ∧
    (∀ b c, (mroOf ct inst).Nodup → b ∈ mroOf ct inst → b ≠ key →
      c ∉ s.globalResolvingCbs → c ∉ (lookupA s.resolvingCbs key).getD [] →
      ((lookupA s.resolvingCbs b).getD []).count c = 1 →
      (∀ b', b' ∈ mroOf ct inst → b' ≠ b → b' ≠ key →
        c ∉ (lookupA s.resolvingCbs b').getD []) →
      (fire_resolving_callbacks ct s key inst).count c = 1) := by
  refine ⟨?_, ?_, ?_, rfl, ?_, ?_⟩
  · rw [fire_resolving_eq, List.append_assoc, List.take_left]
  · unfold fire_after_resolving_callbacks
    rw [List.take_left]
  · rw [fire_resolving_eq, List.append_assoc, List.drop_left,
      List.take_left]
  · intro b hb hbk c hc
    rw [fire_resolving_eq]
    refine List.mem_append.mpr (Or.inr ?_)
    rw [List.mem_flatten]
    exact ⟨(lookupA s.resolvingCbs b).getD [],
      List.mem_map.mpr ⟨b, mem_filterNe.mpr ⟨hb, hbk⟩, rfl⟩, hc⟩
  · intro b c hnd hb hbk hcg hck hc1 hother
    rw [fire_resolving_eq, List.count_append, List.count_append]
    rw [List.count_eq_zero.mpr hcg, List.count_eq_zero.mpr hck]
    have := count_join_single (fun b' => (lookupA s.resolvingCbs b').getD [])
      c (filterNe key (mroOf ct inst)) b (nodup_filterNe hnd)
      (mem_filterNe.mpr ⟨hb, hbk⟩)
      (fun b' hb' hne => by
        obtain ⟨hb'mem, hb'k⟩ := mem_filterNe.mp hb'
        exact List.count_eq_zero.mpr (hother b' hb'mem hne hb'k))
    rw [this, hc1]

/-- C7 witness: callback 2, registered once on the ancestor `Base`, fires
exactly once when `Impl` is resolved. -/
theorem C7_callback_phases_witness :
    (fire_resolving_callbacks ct7 s7 "Impl" (.obj "Impl" 0 [])).count 2 = 1 :=
  (C7_callback_phases ct7 s7 "Impl" (.obj "Impl" 0 [])).2.2.2.2.2
    "Base" 2 (by decide) (by decide) (by decide)
    (by simp [s7, st0]) (by simp [s7, st0, lookupA])
    (by decide) (by decide)

/-- C8 counterexample: for `W(dflt: Optional[G] = None)` with `G` unbound
but auto-wirable (the second conjunct shows `make(G)` succeeds on its own),
the claim says the container recursively makes `G` and uses the default
only if that resolution fails; instead `make(W)` injects the default
`None` — line 204 skips resolution entirely for a defaulted parameter
whose type is not explicitly bound. -/
theorem C8_counterexample :
    (resolve fenv0 ctC8 10 st0 (.cls "W" false) [] true).r
      = .ok (.obj "W" 0 [("dflt", .vnone)]) ∧
    (resolve fenv0 ctC8 10 st0 (.cls "G" false) [] true).r
      = .ok (.obj "G" 0 []) := ⟨rfl, rfl⟩

/-- C8 (amended).  For a constructor parameter with a type annotation and
no explicit value, after unwrapping `Optional`/`Union`-with-`None`: (a) if
the parameter has a default and the unwrapped type is not bound in the
container, the default is used without attempting any resolution; (b) if
the parameter has no default and the recursive `make` of the target raises
`EntryNotFound`, the error propagates wrapped with
"... while building [<concrete>]" context, preserving the `EntryNotFound`
kind; (c) if the parameter has a default, the type is bound, and the
recursive `make` raises `EntryNotFound`, the loop falls back to the
default and continues. -/
theorem C8_param_resolution (mk : St → TypeRef → RRes) (cname : String)
    (s : St) (p : Param) (ps : List Param)
    (kwargs deps : List (String × Value)) (ann : Annot)
    (hv : p.variadic = false)
    (hkw : lookupA kwargs p.name = none)
    (hann : p.annot = some ann) :
    (p.dflt.isSome = true → boundAnnot s (unwrapAnnot ann) = false →
      resolveDeps mk cname s (p :: ps) kwargs deps
        = resolveDeps mk cname s ps kwargs deps) ∧
    (∀ tgt m, p.dflt = none →
      annotTarget (unwrapAnnot ann) = some tgt →
      (mk s tgt).r = .error (.entryNotFound m) →
      resolveDeps mk cname s (p :: ps) kwargs deps
        = ⟨.error (.entryNotFound (m ++ " while building [" ++ cname ++ "]")),
            (mk s tgt).st, (mk s tgt).tr⟩) ∧
    (∀ tgt m d, p.dflt = some d →
      boundAnnot s (unwrapAnnot ann) = true →
      annotTarget (unwrapAnnot ann) = some tgt →
      (mk s tgt).r = .error (.entryNotFound m) →
      resolveDeps mk cname s (p :: ps) kwargs deps
        = ⟨(resolveDeps mk cname (mk s tgt).st ps kwargs deps).r,
            (resolveDeps mk cname (mk s tgt).st ps kwargs deps).st,
            (mk s tgt).tr
              ++ (resolveDeps mk cname (mk s tgt).st ps kwargs deps).tr⟩) := by
  refine ⟨?_, ?_, ?_⟩
  · intro hd hbnd
    conv_lhs => unfold resolveDeps
    simp [hv, hkw, hann, hd, hbnd]
  · intro tgt m hd htgt hmk
    conv_lhs => unfold resolveDeps
    simp [hv, hkw, hann, hd, htgt, hmk]
  · intro tgt m d hd hbnd htgt hmk
    conv_lhs => unfold resolveDeps
    simp [hv, hkw, hann, hd, hbnd, htgt, hmk]

/-- C8 witness: part (a) evaluated on the `W`/`G` fixture — the defaulted
unbound parameter is skipped exactly as if it were absent. -/
theorem C8_param_resolution_witness :
    resolveDeps (fun s t => resolve fenv0 ctC8 3 s t [] true) "W" st0
      [⟨"dflt", some (.union [.cls "G" false] true), some .vnone, false⟩] [] []
      = resolveDeps (fun s t => resolve fenv0 ctC8 3 s t [] true) "W" st0
        [] [] [] :=
  (C8_param_resolution (fun s t => resolve fenv0 ctC8 3 s t [] true) "W" st0
    ⟨"dflt", some (.union [.cls "G" false] true), some .vnone, false⟩ []
    [] [] (.union [.cls "G" false] true) rfl rfl rfl).1 rfl rfl

theorem sameNames_lookup_none {ns : List String}
    {kw1 kw2 : List (String × Value)} (h : SameNames ns kw1 kw2)
    {nm : String} (hl : lookupA kw1 nm = none) : lookupA kw2 nm = none := by
  induction h with
  | nil => rfl
  | cons hab hrest ih =>
      next a b l1 l2 =>
        unfold lookupA at hl ⊢
        rw [← hab.1]
        split at hl
        · exact absurd hl (by simp)
        · next hne => rw [if_neg hne]; exact ih hl

theorem sameNames_lookup_some {ns : List String}
    {kw1 kw2 : List (String × Value)} (h : SameNames ns kw1 kw2)
    {nm : String} {v1 : Value} (hl : lookupA kw1 nm = some v1) :
    (∃ v2, lookupA kw2 nm = some v2) ∧ nm ∈ ns := by
  induction h with
  | nil => exact absurd hl (by simp [lookupA])
  | cons hab hrest ih =>
      next a b l1 l2 =>
        unfold lookupA at hl ⊢
        rw [← hab.1]
        split at hl
        · next heq =>
            rw [if_pos heq]
            exact ⟨⟨b.2, rfl⟩, heq ▸ hab.2⟩
        · next hne => rw [if_neg hne]; exact ih hl

theorem sameNames_erase {ns : List String}
    {kw1 kw2 : List (String × Value)} (h : SameNames ns kw1 kw2)
    (nm : String) : SameNames ns (eraseA kw1 nm) (eraseA kw2 nm) := by
  induction h with
  | nil => exact List.Forall₂.nil
  | cons hab hrest ih =>
      next a b l1 l2 =>
        unfold eraseA
        rw [← hab.1]
        split
        · exact ih
        · exact List.Forall₂.cons ⟨rfl, hab.2⟩ ih

/-- C9.  Explicit parameters are never propagated into nested recursive
`make` calls: the dependency loop of `_build` calls `self.make(type)` with
no explicit parameters (lines 210/213), so running it with two
explicit-parameter dicts that bind the same names — any two values for
each explicit parameter — produces the same container state, the same
callback trace, the same error (if any), and dependency dicts that can
differ only at the explicitly supplied names themselves. -/
theorem C9_explicit_params_isolation (mk : St → TypeRef → RRes)
    (cname : String) (ns : List String) :
    ∀ (ps : List Param) (s : St) (kw1 kw2 deps1 deps2 : List (String × Value)),
      SameNames ns kw1 kw2 → AgreeOutside ns deps1 deps2 →
      (resolveDeps mk cname s ps kw1 deps1).st
        = (resolveDeps mk cname s ps kw2 deps2).st ∧
      (resolveDeps mk cname s ps kw1 deps1).tr
        = (resolveDeps mk cname s ps kw2 deps2).tr ∧
      ((∃ e, (resolveDeps mk cname s ps kw1 deps1).r = .error e ∧
             (resolveDeps mk cname s ps kw2 deps2).r = .error e) ∨
       (∃ d1 d2, (resolveDeps mk cname s ps kw1 deps1).r = .ok d1 ∧
                 (resolveDeps mk cname s ps kw2 deps2).r = .ok d2 ∧
                 AgreeOutside ns d1 d2)) := by
  intro ps
  induction ps with
  | nil =>
      intro s kw1 kw2 deps1 deps2 hkw hdeps
      exact ⟨rfl, rfl, Or.inr ⟨deps1, deps2, rfl, rfl, hdeps⟩⟩
  | cons p rest ih =>
      intro s kw1 kw2 deps1 deps2 hkw hdeps
      unfold resolveDeps
      by_cases hv : p.variadic = true
      · simp only [hv, if_true]
        exact ih s kw1 kw2 deps1 deps2 hkw hdeps
      · simp only [hv, Bool.false_eq_true, if_false]
        cases hl1 : lookupA kw1 p.name with
        | some v1 =>
            obtain ⟨⟨v2, hl2⟩, hns⟩ := sameNames_lookup_some hkw hl1
            simp only [hl1, hl2]
            exact ih s (eraseA kw1 p.name) (eraseA kw2 p.name)
              (deps1 ++ [(p.name, v1)]) (deps2 ++ [(p.name, v2)])
              (sameNames_erase hkw p.name)
              (List.rel_append hdeps
                (List.Forall₂.cons ⟨rfl, Or.inl hns⟩ List.Forall₂.nil))
        | none =>
            have hl2 := sameNames_lookup_none hkw hl1
            simp only [hl1, hl2]
            cases hann : p.annot with
            | none =>
                simp only []
                by_cases hd : p.dflt.isSome = true
                · simp only [hd, if_true]
                  exact ih s kw1 kw2 deps1 deps2 hkw hdeps
                · simp only [hd, if_false]
                  exact ⟨rfl, rfl, Or.inl ⟨_, rfl, rfl⟩⟩
            | some ann =>
                simp only []
                by_cases hb :
                    (p.dflt.isSome && !boundAnnot s (unwrapAnnot ann)) = true
                · simp only [hb, if_true]
                  exact ih s kw1 kw2 deps1 deps2 hkw hdeps
                · simp only [hb, if_false]
                  cases ht : annotTarget (unwrapAnnot ann) with
                  | none =>
                      simp only []
                      by_cases hd : p.dflt.isSome = true
                      · simp only [hd, if_true]
                        exact ih s kw1 kw2 deps1 deps2 hkw hdeps
                      · simp only [hd, if_false]
                        exact ⟨rfl, rfl, Or.inl ⟨_, rfl, rfl⟩⟩
                  | some target =>
                      simp only []
                      cases hres : (mk s target).r with
                      | ok v =>
                          simp only [hres, Bool.false_eq_true, if_false]
                          obtain ⟨h1, h2, h3⟩ := ih (mk s target).st kw1 kw2
                            (deps1 ++ [(p.name, v)]) (deps2 ++ [(p.name, v)])
                            hkw
                            (List.rel_append hdeps
                              (List.Forall₂.cons ⟨rfl, Or.inr rfl⟩
                                List.Forall₂.nil))
                          exact ⟨h1, by rw [h2], h3⟩
                      | error e =>
                          cases e with
                          | entryNotFound m =>
                              simp only [hres]
                              cases hd : p.dflt with
                              | none =>
                                  simp only []
                                  exact ⟨rfl, rfl, Or.inl ⟨_, rfl, rfl⟩⟩
                              | some d =>
                                  simp only [Bool.false_eq_true, if_false]
                                  obtain ⟨h1, h2, h3⟩ := ih (mk s target).st
                                    kw1 kw2 deps1 deps2 hkw hdeps
                                  exact ⟨h1, by rw [h2], h3⟩
                          | circular cyc =>
                              simp only [hres]
                              exact ⟨rfl, rfl, Or.inl ⟨_, rfl, rfl⟩⟩
                          | fuel =>
                              simp only [hres]
                              exact ⟨rfl, rfl, Or.inl ⟨_, rfl, rfl⟩⟩

/-- C9 witness: building a consumer with an explicit `name` parameter and
an auto-resolved `dep` parameter, the explicit value `"x"` versus `"y"`
makes no difference to the container state after the dependency loop. -/
theorem C9_explicit_params_isolation_witness :
    (resolveDeps (fun s t => resolve fenv0 ctC4 3 s t [] true) "X" sC4
      [⟨"name", none, none, false⟩,
       ⟨"dep", some (.ref (.cls "IDep" false)), none, false⟩]
      [("name", .vstr "x")] []).st
      = (resolveDeps (fun s t => resolve fenv0 ctC4 3 s t [] true) "X" sC4
        [⟨"name", none, none, false⟩,
         ⟨"dep", some (.ref (.cls "IDep" false)), none, false⟩]
        [("name", .vstr "y")] []).st :=
  (C9_explicit_params_isolation (fun s t => resolve fenv0 ctC4 3 s t [] true)
    "X" ["name"]
    [⟨"name", none, none, false⟩,
     ⟨"dep", some (.ref (.cls "IDep" false)), none, false⟩]
    sC4 [("name", .vstr "x")] [("name", .vstr "y")] [] []
    (List.Forall₂.cons ⟨rfl, by simp⟩ List.Forall₂.nil)
    List.Forall₂.nil).1

/-- C10.  `flush` resets the five resolution maps (bindings, shared
instances, scoped instances, aliases, resolved marks) and leaves all seven
callback registries and the environment resolver untouched; consequently a
global resolving callback registered before `flush` still fires for a
successful resolution performed after `flush`. -/
theorem C10_flush_keeps_callbacks (s : St) :
    (flush s).bindings = [] ∧ (flush s).instances = [] ∧
    (flush s).scopedInstances = [] ∧ (flush s).aliases = [] ∧
    (flush s).resolvedKeys = [] ∧
    (flush s).globalBeforeCbs = s.globalBeforeCbs ∧
    (flush s).beforeCbs = s.beforeCbs ∧
    (flush s).globalResolvingCbs = s.globalResolvingCbs ∧
    (flush s).resolvingCbs = s.resolvingCbs ∧
    (flush s).globalAfterCbs = s.globalAfterCbs ∧
    (flush s).afterCbs = s.afterCbs ∧
    (flush s).rebindingCbs = s.rebindingCbs ∧
    (flush s).envResolver = s.envResolver ∧
    (∀ (fenv : FactoryEnv) (ct : ClassTable) (n : Nat) (t : TypeRef)
      (v : Value) (s' : St) (tr : List Nat) (g : Nat),
      resolve fenv ct n (flush (registerGlobalResolving s g)) t [] true
        = ⟨.ok v, s', tr⟩ → g ∈ tr) := by
  refine ⟨rfl, rfl, rfl, rfl, rfl, rfl, rfl, rfl, rfl, rfl, rfl, rfl, rfl, ?_⟩
  intro fenv ct n t v s' tr g h
  cases n with
  | zero => exact absurd h (by simp [resolve])
  | succ m =>
      unfold resolve at h
      dsimp only [] at h
      set s2 : St := flush (registerGlobalResolving s g) with hs2
      rw [show lookupA s2.scopedInstances
          (get_alias s2.aliases (class_to_string t)) = none from rfl,
        show lookupA s2.instances
          (get_alias s2.aliases (class_to_string t)) = none from rfl] at h
      simp only [cacheHit, List.isEmpty_nil, if_true] at h
      split at h
      · simp only [RRes.mk.injEq] at h
        exact absurd h.1 (by simp)
      · next con hcon =>
          unfold afterBuild at h
          split at h
          · simp only [RRes.mk.injEq] at h
            exact absurd h.1 (by simp)
          · next inst heqb =>
              dsimp only [] at h
              simp only [RRes.mk.injEq] at h
              obtain ⟨-, -, htr⟩ := h
              set key := get_alias s2.aliases (class_to_string t) with hkey
              set bst := (buildConcrete
                (fun s'' t' => resolve fenv ct m s'' t' [] true)
                fenv ct s2 con []).st with hbst
              have hfr : Frame s2 bst :=
                frame_buildConcrete _ fenv ct s2 con []
                  (fun s'' t' => frame_resolve fenv ct m s'' t' [] true)
              have hgr : (cacheAndMark bst key true inst).globalResolvingCbs
                  = s.globalResolvingCbs ++ [g] := by
                rw [(frame_cacheAndMark bst key true inst).gr, hfr.gr]
                rfl
              simp only [if_true] at htr
              rw [← htr]
              refine List.mem_append.mpr (Or.inl ?_)
              refine List.mem_append.mpr (Or.inr ?_)
              rw [fire_resolving_eq]
              refine List.mem_append.mpr
                (Or.inl (List.mem_append.mpr (Or.inl ?_)))
              rw [hgr]
              exact List.mem_append.mpr (Or.inr (List.mem_singleton.mpr rfl))

/-- C10 witness: callback 9 is registered globally, the container is
flushed, and an auto-wired `make(C)` afterwards still fires callback 9. -/
theorem C10_flush_keeps_callbacks_witness :
    (9 : Nat) ∈ (resolve fenv0 ctC 3
      (flush (registerGlobalResolving sShared 9)) (.cls "C" false) []
      true).tr :=
  (C10_flush_keeps_callbacks sShared).2.2.2.2.2.2.2.2.2.2.2.2.2
    fenv0 ctC 3 (.cls "C" false) (.obj "C" 0 [])
    (resolve fenv0 ctC 3 (flush (registerGlobalResolving sShared 9))
      (.cls "C" false) [] true).st
    (resolve fenv0 ctC 3 (flush (registerGlobalResolving sShared 9))
      (.cls "C" false) [] true).tr
    9 rfl

end Elyx
